import Mathlib

/-!
Verification of the CT (Certificate Transparency) SCT verifier in
`src/main.rs` against its natural-language specification.

The development shallowly embeds the program: bytes are `Nat` lists,
the `serde_json` value type is the inductive `Json`, the registry build
`parse_ct_log_list` is translated line by line from the source, and the
per-extension / per-SCT loop of `main` becomes `processExts` / `mainLoop`.
Components that live in external crates (the `sct` crate's `verify_sct`,
the `x509_parser` SCT-extension decoder, SHA-256, base64) are modelled
from the specification's description of their boundary, as marked on the
individual definitions.
-/

deriving instance DecidableEq for Except

mutual
/-- JSON values, the model of `serde_json::Value` as used by the source
(string keys, arrays, strings, integers; `Null`/`Bool` kept for totality).
Arrays and objects carry their own spine types so that every function on
`Json` is plain structural recursion. -/
inductive Json where
  | null : Json
  | bool (b : Bool) : Json
  | num (n : Int) : Json
  | str (s : String) : Json
  | jarr (xs : JsonList) : Json
  | jobj (fields : JsonFields) : Json
inductive JsonList where
  | nil : JsonList
  | cons (hd : Json) (tl : JsonList) : JsonList
inductive JsonFields where
  | nil : JsonFields
  | cons (k : String) (v : Json) (tl : JsonFields) : JsonFields
end

/-- Build a JSON array spine from a list. -/
def jsonListOf (l : List Json) : JsonList :=
  l.foldr JsonList.cons JsonList.nil

/-- Build a JSON object spine from a key-value list. -/
def jsonFieldsOf (l : List (String × Json)) : JsonFields :=
  l.foldr (fun p acc => JsonFields.cons p.1 p.2 acc) JsonFields.nil

/-- JSON array from a list of elements. -/
def Json.arr (xs : List Json) : Json := Json.jarr (jsonListOf xs)

/-- JSON object from a key-value list. -/
def Json.obj (fs : List (String × Json)) : Json := Json.jobj (jsonFieldsOf fs)

/-- The elements of an array spine, as a list. -/
def JsonList.toList : JsonList → List Json
  | JsonList.nil => []
  | JsonList.cons hd tl => hd :: JsonList.toList tl

/-- First field with the given key. -/
def jsonFind : JsonFields → String → Option Json
  | JsonFields.nil, _ => none
  | JsonFields.cons k v tl, key => if k = key then some v else jsonFind tl key

/-- Model of `serde_json::Value::get` with a string key: object field lookup,
`None` on any non-object. -/
def Json.get (j : Json) (k : String) : Option Json :=
  match j with
  | .jobj fs => jsonFind fs k
  | _ => none

/-- Model of `Value::as_array`. -/
def Json.as_array (j : Json) : Option (List Json) :=
  match j with
  | .jarr xs => some xs.toList
  | _ => none

/-- Model of `Value::as_str`. -/
def Json.as_str (j : Json) : Option String :=
  match j with
  | .str s => some s
  | _ => none

/-- Model of `Value::as_u64`: succeeds on non-negative integers. -/
def Json.as_u64 (j : Json) : Option Nat :=
  match j with
  | .num n => if 0 ≤ n then some n.toNat else none
  | _ => none

/-- Escape one character for JSON string output (quote and backslash). -/
def escChar (c : Char) : String :=
  if c = '"' then "\\\"" else if c = '\\' then "\\\\" else String.singleton c

/-- Render a string as a JSON string literal. -/
def jsonStrRender (s : String) : String :=
  "\"" ++ String.join (s.data.map escChar) ++ "\""

mutual
/-- Model of `Value::to_string`: the JSON serialization of a value.  The
source calls `.to_string()` on the `description`, `url` and `name` fields,
so string values keep their surrounding quotes. -/
def Json.render : Json → String
  | Json.null => "null"
  | Json.bool b => if b then "true" else "false"
  | Json.num n => toString n
  | Json.str s => jsonStrRender s
  | Json.jarr xs => "[" ++ JsonList.render xs ++ "]"
  | Json.jobj fs => "\x7b" ++ JsonFields.render fs ++ "\x7d"
def JsonList.render : JsonList → String
  | JsonList.nil => ""
  | JsonList.cons hd JsonList.nil => Json.render hd
  | JsonList.cons hd (JsonList.cons x tl) =>
      Json.render hd ++ "," ++ JsonList.render (JsonList.cons x tl)
def JsonFields.render : JsonFields → String
  | JsonFields.nil => ""
  | JsonFields.cons k v JsonFields.nil => jsonStrRender k ++ ":" ++ Json.render v
  | JsonFields.cons k v (JsonFields.cons k2 v2 tl) =>
      jsonStrRender k ++ ":" ++ Json.render v ++ "," ++
        JsonFields.render (JsonFields.cons k2 v2 tl)
end

/-- Value of one base64 alphabet character (standard alphabet). -/
def b64Val (c : Char) : Option Nat :=
  if 'A' ≤ c ∧ c ≤ 'Z' then some (c.toNat - 65)
  else if 'a' ≤ c ∧ c ≤ 'z' then some (c.toNat - 71)
  else if '0' ≤ c ∧ c ≤ '9' then some (c.toNat + 4)
  else if c = '+' then some 62
  else if c = '/' then some 63
  else none

/-- Modelled from the spec: the `base64` crate's `BASE64_STANDARD.decode`
(the crate source is not part of this repository).  Standard alphabet,
canonical padding required, non-zero trailing bits rejected. -/
def base64Chunks : List Char → Option (List Nat)
  | [] => some []
  | a :: b :: c :: d :: rest =>
      match b64Val a, b64Val b with
      | some va, some vb =>
        if c = '=' then
          if d = '=' ∧ rest = [] ∧ vb % 16 = 0 then some [va * 4 + vb / 16] else none
        else
          match b64Val c with
          | some vc =>
            if d = '=' then
              if rest = [] ∧ vc % 4 = 0 then
                some [va * 4 + vb / 16, vb % 16 * 16 + vc / 4]
              else none
            else
              match b64Val d with
              | some vd =>
                  (base64Chunks rest).map
                    (fun tl => (va * 4 + vb / 16) :: (vb % 16 * 16 + vc / 4) ::
                               (vc % 4 * 64 + vd) :: tl)
              | none => none
          | none => none
      | _, _ => none
  | _ => none

/-- Decode a base64 string to raw bytes (see `base64Chunks`). -/
def base64Decode (s : String) : Option (List Nat) :=
  base64Chunks s.data

/-- Truncate to 32 bits. -/
def w32 (x : Nat) : Nat := x % 4294967296

/-- Rotate a 32-bit word right by `n`. -/
def rotr (n x : Nat) : Nat := (x >>> n) ||| w32 (x <<< (32 - n))

/-- Big-endian bytes of `n`, width `w`. -/
def be : Nat → Nat → List Nat
  | 0, _ => []
  | w + 1, n => be w (n / 256) ++ [n % 256]

/-- Group bytes into big-endian 32-bit words. -/
def toWords : List Nat → List Nat
  | b0 :: b1 :: b2 :: b3 :: rest =>
      (((b0 * 256 + b1) * 256 + b2) * 256 + b3) :: toWords rest
  | _ => []

/-- SHA-256 round constants (FIPS 180-4, in decimal). -/
def shaK : List Nat :=
  [1116352408, 1899447441, 3049323471, 3921009573,
   961987163, 1508970993, 2453635748, 2870763221,
   3624381080, 310598401, 607225278, 1426881987,
   1925078388, 2162078206, 2614888103, 3248222580,
   3835390401, 4022224774, 264347078, 604807628,
   770255983, 1249150122, 1555081692, 1996064986,
   2554220882, 2821834349, 2952996808, 3210313671,
   3336571891, 3584528711, 113926993, 338241895,
   666307205, 773529912, 1294757372, 1396182291,
   1695183700, 1986661051, 2177026350, 2456956037,
   2730485921, 2820302411, 3259730800, 3345764771,
   3516065817, 3600352804, 4094571909, 275423344,
   430227734, 506948616, 659060556, 883997877,
   958139571, 1322822218, 1537002063, 1747873779,
   1955562222, 2024104815, 2227730452, 2361852424,
   2428436474, 2756734187, 3204031479, 3329325298]

/-- SHA-256 initial hash state (FIPS 180-4, in decimal). -/
def shaH0 : List Nat :=
  [1779033703, 3144134277, 1013904242, 2773480762,
   1359893119, 2600822924, 528734635, 1541459225]

/-- Extend the message schedule by one word. -/
def schedStep (ws : List Nat) : List Nat :=
  let i := ws.length
  let w15 := ws.getD (i - 15) 0
  let w2 := ws.getD (i - 2) 0
  let s0 := rotr 7 w15 ^^^ rotr 18 w15 ^^^ (w15 >>> 3)
  let s1 := rotr 17 w2 ^^^ rotr 19 w2 ^^^ (w2 >>> 10)
  ws ++ [w32 (ws.getD (i - 16) 0 + s0 + ws.getD (i - 7) 0 + s1)]

/-- Extend the schedule `n` times. -/
def sched : Nat → List Nat → List Nat
  | 0, ws => ws
  | n + 1, ws => sched n (schedStep ws)

/-- One SHA-256 compression round on the eight working registers. -/
def shaRound (st : List Nat) (k w : Nat) : List Nat :=
  let a := st.getD 0 0
  let b := st.getD 1 0
  let c := st.getD 2 0
  let d := st.getD 3 0
  let e := st.getD 4 0
  let f := st.getD 5 0
  let g := st.getD 6 0
  let h := st.getD 7 0
  let bigS1 := rotr 6 e ^^^ rotr 11 e ^^^ rotr 25 e
  let ch := (e &&& f) ^^^ ((e ^^^ 4294967295) &&& g)
  let temp1 := w32 (h + bigS1 + ch + k + w)
  let bigS0 := rotr 2 a ^^^ rotr 13 a ^^^ rotr 22 a
  let maj := (a &&& b) ^^^ (a &&& c) ^^^ (b &&& c)
  let temp2 := w32 (bigS0 + maj)
  [w32 (temp1 + temp2), a, b, c, w32 (d + temp1), e, f, g]

/-- Compress one 64-byte block into the hash state. -/
def shaBlock (hst block : List Nat) : List Nat :=
  let ws := sched 48 (toWords block)
  let st := (shaK.zip ws).foldl (fun st p => shaRound st p.1 p.2) hst
  List.zipWith (fun x y => w32 (x + y)) hst st

/-- Split a byte list into 64-byte blocks, with a structural fuel bound. -/
def chunksGo : Nat → List Nat → List (List Nat)
  | _, [] => []
  | 0, _ => []
  | fuel + 1, l => l.take 64 :: chunksGo fuel (l.drop 64)

/-- Split a byte list into 64-byte blocks.  Each step consumes at least one
byte, so `l.length` fuel always suffices. -/
def chunks64 (l : List Nat) : List (List Nat) := chunksGo l.length l

/-- Modelled from the spec: SHA-256 of a byte string (FIPS 180-4), the hash
relating a CT log's `log_id` to its public key; no hashing code is part of
this repository. -/
def sha256Bytes (msg : List Nat) : List Nat :=
  let padLen := (119 - msg.length % 64) % 64
  let padded := msg ++ 128 :: List.replicate padLen 0 ++ be 8 (msg.length * 8)
  ((chunks64 padded).foldl shaBlock shaH0).foldr (fun w acc => be 4 w ++ acc) []

/-- The source's `CTLog` struct (`src/main.rs` lines 10-17). -/
structure CTLog where
  description : String
  url : String
  operated_by : String
  key : List Nat
  id : List Nat
  max_merge_delay : Nat
deriving DecidableEq

/-- The registry: model of `HashMap<[u8;32], CTLog>` as an association list
with map semantics. -/
abbrev Registry := List (List Nat × CTLog)

/-- Model of `HashMap::insert`: replaces the value at an existing key. -/
def mapInsert (m : Registry) (k : List Nat) (v : CTLog) : Registry :=
  match m with
  | [] => [(k, v)]
  | (k', v') :: rest =>
      if k' = k then (k, v) :: rest else (k', v') :: mapInsert rest k v

/-- Model of `HashMap::get`. -/
def mapGet (m : Registry) (k : List Nat) : Option CTLog :=
  match m with
  | [] => none
  | (k', v) :: rest => if k' = k then some v else mapGet rest k

/-- Turn an `Option` into the source's `ok_or(anyhow!(msg))?`. -/
def req {α : Type} (o : Option α) (msg : String) : Except String α :=
  match o with
  | some a => Except.ok a
  | none => Except.error msg

/-- One iteration of the inner loop of `parse_ct_log_list`
(`src/main.rs` lines 41-75): field accesses, base64 decodes and the
`[u8;32]` conversion, in source order. -/
def buildLog (operator log : Json) : Except String (List Nat × CTLog) := do
  let idJson ← req (log.get "log_id") "Failed to get log_id from ct logs"
  let idStr ← req idJson.as_str "Failed to get log_id str from ct logs"
  let id ← req (base64Decode idStr) "base64 decode error"
  let descJson ← req (log.get "description") "Failed to get description from ct logs"
  let urlJson ← req (log.get "url") "Failed to get url from ct logs"
  let nameJson ← req (operator.get "name") "Failed to get name from ct logs"
  let keyJson ← req (log.get "key") "Failed to get key from ct logs"
  let keyStr ← req keyJson.as_str "Failed to get key str from ct logs"
  let key ← req (base64Decode keyStr) "base64 decode error"
  let id32 ← if id.length = 32 then Except.ok id
             else Except.error "could not convert slice to array"
  let mmdJson ← req (log.get "mmd") "Failed to get mmd from ct logs"
  let mmd ← req mmdJson.as_u64 "Failed to get mmd str from ct logs"
  Except.ok (id32,
    { description := descJson.render
      url := urlJson.render
      operated_by := nameJson.render
      key := key
      id := id32
      max_merge_delay := mmd })

/-- The inner `for log in logs` loop of `parse_ct_log_list`
(`src/main.rs` lines 41-78): build each entry and insert it into the map,
stopping at the first error. -/
def parseLogs (operator : Json) (m : Registry) : List Json → Except String Registry
  | [] => Except.ok m
  | log :: rest => do
      let (id32, curr) ← buildLog operator log
      parseLogs operator (mapInsert m id32 curr) rest

/-- The outer `for operator in operators` loop of `parse_ct_log_list`
(`src/main.rs` lines 34-79). -/
def parseOps (m : Registry) : List Json → Except String Registry
  | [] => Except.ok m
  | operator :: rest => do
      let logsJson ← req (operator.get "logs") "Failed to get logs from ct logs"
      let logs ← req logsJson.as_array "Failed to get array of logs from ct logs"
      let m2 ← parseLogs operator m logs
      parseOps m2 rest

/-- The source's `parse_ct_log_list` (`src/main.rs` lines 19-82), as a
function of the already-deserialized dataset (the source reads the dataset
from a compiled-in JSON fixture and deserializes it with `serde_json`). -/
def parse_ct_log_list (ds : Json) : Except String Registry := do
  let opsJson ← req (ds.get "operators") "Failed to get operators from ct logs"
  let operators ← req opsJson.as_array "Failed to get array of operators from ct logs"
  parseOps [] operators

/-- Per-SCT verification outcomes, from the spec's data model. -/
inductive Outcome where
  | Valid
  | SignatureInvalid
  | UnknownLog
  | FutureTimestamp
  | Malformed
deriving DecidableEq

/-- How a run of `main`'s verification loop can abort: `panicUnwrap` is the
`.unwrap()` on the registry lookup (`src/main.rs` line 104), `panicSlice`
an out-of-range slice index (lines 116 and 119), `badExtension` the
`bail!("Failed to parse SCT extension")` (line 132). -/
inductive RunErr where
  | panicUnwrap
  | panicSlice
  | badExtension
deriving DecidableEq

/-- A parsed SCT record (spec §3; fields in the order of RFC 6962 §3.2). -/
structure Sct where
  version : Nat
  log_id : List Nat
  timestamp : Nat
  extensions : List Nat
  hash_alg : Nat
  sig_alg : Nat
  signature : List Nat
deriving DecidableEq

/-- Modelled from the spec: decoding one raw SCT record (spec §4.4 step 1;
the decoding itself is done by the external `sct` and `x509_parser`
crates): 1-byte version, 32-byte log id, 8-byte big-endian timestamp,
2-byte length plus extension bytes, the algorithm pair, 2-byte length plus
signature bytes, with truncation or trailing bytes rejected. -/
def sctDecode (b : List Nat) : Option Sct :=
  if b.length < 43 then none
  else
    let version := b.getD 0 0
    let log_id := (b.drop 1).take 32
    let timestamp := ((b.drop 33).take 8).foldl (fun a x => a * 256 + x) 0
    let extLen := b.getD 41 0 * 256 + b.getD 42 0
    let rest := b.drop 43
    if rest.length < extLen + 4 then none
    else
      let extensions := rest.take extLen
      let r2 := rest.drop extLen
      let sigLen := r2.getD 2 0 * 256 + r2.getD 3 0
      let r3 := r2.drop 4
      if r3.length = sigLen then
        some { version := version, log_id := log_id, timestamp := timestamp,
               extensions := extensions, hash_alg := r2.getD 0 0,
               sig_alg := r2.getD 1 0, signature := r3 }
      else none

/-- Modelled from the spec: the reconstructed "digitally-signed" struct for
an `x509_entry` (spec §4.4 step 3): `version ‖ signature_type=0 ‖
timestamp(8,BE) ‖ entry_type(2) ‖ len(3)+certificate DER ‖
extensions_len(2)+extensions`. -/
def reconstruct (cert : List Nat) (s : Sct) : List Nat :=
  s.version :: 0 :: be 8 s.timestamp ++ 0 :: 0 :: be 3 cert.length ++ cert ++
    be 2 s.extensions.length ++ s.extensions

/-- An abstract signature-check oracle standing for the ECDSA/RSA
verification the external crypto library performs: arguments are the log's
public key, the signed message, and the signature. -/
def SigVerify : Type := List Nat → List Nat → List Nat → Bool

/-- Modelled from the spec: the `sct` crate's `verify_sct` at the boundary
described in spec §4.4 (that crate is a dependency, not part of this
repository): decode the record, resolve the log in the supplied list,
verify the signature over the reconstructed struct, and check the
timestamp against the supplied time plus the clock-skew tolerance. -/
def verify_sct (sv : SigVerify) (cert raw : List Nat) (at_time tol : Nat)
    (logs : List CTLog) : Outcome :=
  match sctDecode raw with
  | none => Outcome.Malformed
  | some s =>
    match logs.find? (fun l => l.id == s.log_id) with
    | none => Outcome.UnknownLog
    | some lg =>
      if sv lg.key (reconstruct cert s) s.signature then
        if s.timestamp ≤ at_time + tol then Outcome.Valid
        else Outcome.FutureTimestamp
      else Outcome.SignatureInvalid

/-- Model of a Rust slice expression `value[start..start+len]`: defined when
the range lies inside the buffer, a panic (`none`) otherwise. -/
def readSlice (value : List Nat) (start len : Nat) : Option (List Nat) :=
  if start + len ≤ value.length then some ((value.drop start).take len)
  else none

/-- The manual cursor extraction of `main` (`src/main.rs` lines 100 and
114-120) in isolation: starting at byte offset 6 of the extension value,
for each of `n` SCTs read a 2-byte big-endian length and then that many
bytes; `none` models an out-of-range slice panic. -/
def manualExtract (value : List Nat) : Nat → Nat → Option (List (List Nat))
  | 0, _ => some []
  | n + 1, index =>
    match readSlice value index 2 with
    | none => none
    | some bs =>
      let len := bs.getD 0 0 * 256 + bs.getD 1 0
      match readSlice value (index + 2) len with
      | none => none
      | some raw => (manualExtract value n (index + 2 + len)).map (fun tl => raw :: tl)

/-- Modelled from the spec: the DER octet-string envelope around the SCT
list (spec §4.3): tag `0x04` followed by a short-form or minimal long-form
length that must match the remaining bytes exactly. -/
def derContent (v : List Nat) : Option (List Nat) :=
  match v with
  | 4 :: b :: rest =>
    if b < 128 then
      if rest.length = b then some rest else none
    else if b = 129 then
      match rest with
      | n :: rest2 => if 128 ≤ n ∧ rest2.length = n then some rest2 else none
      | [] => none
    else if b = 130 then
      match rest with
      | h :: l :: rest2 =>
          if 256 ≤ h * 256 + l ∧ rest2.length = h * 256 + l then some rest2 else none
      | _ => none
    else none
  | _ => none

/-- Entry-sequence parsing with a structural fuel bound (see
`parseEntries`). -/
def parseEntriesGo : Nat → List Nat → Option (List (List Nat))
  | _, [] => some []
  | 0, _ => none
  | fuel + 1, hi :: lo :: rest =>
    let n := hi * 256 + lo
    if n ≤ rest.length then
      match parseEntriesGo fuel (rest.drop n) with
      | some recs => some (rest.take n :: recs)
      | none => none
    else none
  | _ + 1, _ => none

/-- Modelled from the spec: the entry sequence of the SCT list (spec §4.3):
each entry is a 2-byte big-endian length followed by exactly that many
bytes; a length running past the end is an error.  Each entry consumes at
least two bytes, so `eb.length` fuel always suffices. -/
def parseEntries (eb : List Nat) : Option (List (List Nat)) :=
  parseEntriesGo eb.length eb

/-- Modelled from the spec: the `x509_parser` SCT-extension decoder
(spec §4.3, a dependency of this repository): strip the octet-string
envelope, check the 2-byte total length covers exactly the remainder,
split the entries, and require every record to decode as an SCT. -/
def sctListParse (value : List Nat) : Option (List (List Nat)) :=
  match derContent value with
  | none => none
  | some body =>
    match body with
    | t1 :: t2 :: eb =>
      if t1 * 256 + t2 = eb.length then
        match parseEntries eb with
        | some recs =>
            if recs.all (fun r => (sctDecode r).isSome) then some recs else none
        | none => none
      else none
    | _ => none

/-- The per-SCT loop of `main` (`src/main.rs` lines 101-130): for each
parsed SCT, look its `log_id` up in the registry (`.unwrap()` panics when
absent), read the next raw record with the manual cursor (an out-of-range
slice panics), and verify it; outcomes accumulate in reverse in `acc`. -/
def mainLoop (reg : Registry) (sv : SigVerify) (cert : List Nat)
    (now tol : Nat) (value : List Nat) :
    List Sct → Nat → List Outcome → List Outcome × Option RunErr
  | [], _, acc => (acc.reverse, none)
  | s :: rest, index, acc =>
    match mapGet reg s.log_id with
    | none => (acc.reverse, some RunErr.panicUnwrap)
    | some lg =>
      match readSlice value index 2 with
      | none => (acc.reverse, some RunErr.panicSlice)
      | some bs =>
        let len := bs.getD 0 0 * 256 + bs.getD 1 0
        match readSlice value (index + 2) len with
        | none => (acc.reverse, some RunErr.panicSlice)
        | some raw =>
            mainLoop reg sv cert now tol value rest (index + 2 + len)
              (verify_sct sv cert raw now tol [lg] :: acc)

/-- The object identifier of the SCT-list certificate extension. -/
def sctOid : String := "1.3.6.1.4.1.11129.2.4.2"

/-- The extension scan of `main` (`src/main.rs` lines 96-135): walk the
certificate's extensions; on the SCT OID, decode the SCT list (bailing out
when the decoder rejects it) and run the per-SCT loop from cursor offset
6; other extensions are skipped.  The first component collects the per-SCT
outcomes, the second is the abort, if any. -/
def processExts (reg : Registry) (sv : SigVerify) (cert : List Nat)
    (now tol : Nat) : List (String × List Nat) → List Outcome × Option RunErr
  | [] => ([], none)
  | (oid, value) :: rest =>
    if oid = sctOid then
      match sctListParse value with
      | none => ([], some RunErr.badExtension)
      | some recs =>
        match mainLoop reg sv cert now tol value (recs.filterMap sctDecode) 6 [] with
        | (outs, some e) => (outs, some e)
        | (outs, none) =>
          let r := processExts reg sv cert now tol rest
          (outs ++ r.1, r.2)
    else processExts reg sv cert now tol rest

/-- Dataset constructor: a top-level object with an `operators` array. -/
def mkDs (ops : List Json) : Json :=
  Json.obj [("operators", Json.arr ops)]

/-- Operator entry with a `name` and a `logs` array. -/
def mkOp (nm : String) (logs : List Json) : Json :=
  Json.obj [("name", Json.str nm), ("logs", Json.arr logs)]

/-- Log entry with all five required fields. -/
def mkLog (desc url idB64 keyB64 : String) (mmd : Int) : Json :=
  Json.obj [("description", Json.str desc), ("url", Json.str url),
            ("log_id", Json.str idB64), ("key", Json.str keyB64),
            ("mmd", Json.num mmd)]

/-- Base64 of 32 zero bytes. -/
def zeros32b64 : String := "AAAAAAAAAAAAAAAAAAAAAAAAAAAAAAAAAAAAAAAAAAA="

/-- A serialized SCT record with the given log id, timestamp and extension
bytes, SHA-256/ECDSA algorithm bytes and an empty signature. -/
def sctMin (id : List Nat) (ts : Nat) (ext : List Nat) : List Nat :=
  0 :: id ++ be 8 ts ++ be 2 ext.length ++ ext ++ [4, 3, 0, 0]

/-- A registry entry whose `log_id` is the given id. -/
def ctlogOf (id : List Nat) : CTLog :=
  { description := "d", url := "u", operated_by := "o", key := [],
    id := id, max_merge_delay := 0 }

/-- A signature oracle that accepts everything. -/
def svTrue : SigVerify := fun _ _ _ => true

/-- Log id used for the known log in the C1 scenario. -/
def idA1 : List Nat := List.replicate 32 1

/-- Log id absent from the registry in the C1 scenario. -/
def idB2 : List Nat := List.replicate 32 2

/-- First SCT of the C1 scenario: 210 extension bytes force the record to
257 bytes, so the whole extension needs a long-form envelope length. -/
def sctA1 : List Nat := sctMin idA1 5 (List.replicate 210 0)

/-- Second SCT of the C1 scenario, from the unknown log. -/
def sctB1 : List Nat := sctMin idB2 5 []

/-- Entry bytes of the C1 extension: two length-prefixed records. -/
def ebC1 : List Nat := be 2 257 ++ sctA1 ++ be 2 47 ++ sctB1

/-- The C1 extension value: long-form (0x82) octet-string envelope, 2-byte
total length, then the two entries. -/
def valueC1 : List Nat := 4 :: 130 :: be 2 (ebC1.length + 2) ++ be 2 ebC1.length ++ ebC1

/-- Registry for the C1 scenario: only `idA1` is known. -/
def regC1 : Registry := mapInsert [] idA1 (ctlogOf idA1)

/-- Log id of the first SCT in the C4 scenario; bytes 0, 11 and 12 are
chosen so that the misaligned manual cursor reads a short first length and
then an oversized second length. -/
def idA4 : List Nat := 10 :: List.replicate 10 0 ++ 255 :: List.replicate 20 0

/-- Log id of the second SCT in the C4 scenario. -/
def idB4 : List Nat := List.replicate 32 3

/-- First SCT of the C4 scenario (47 bytes). -/
def sctA4 : List Nat := sctMin idA4 5 []

/-- Second SCT of the C4 scenario (47 bytes). -/
def sctB4 : List Nat := sctMin idB4 5 []

/-- Entry bytes of the C4 extension. -/
def ebC4 : List Nat := be 2 47 ++ sctA4 ++ be 2 47 ++ sctB4

/-- The C4 extension value: the 100-byte content takes a short-form
octet-string length, so the manual cursor's fixed offset 6 is misaligned
by two bytes. -/
def valueC4 : List Nat := 4 :: 100 :: be 2 ebC4.length ++ ebC4

/-- Registry for the C4 scenario: both log ids are known. -/
def regC4 : Registry :=
  mapInsert (mapInsert [] idA4 (ctlogOf idA4)) idB4 (ctlogOf idB4)

/-- The single minimal SCT of the C10 counterexample. -/
def sctM : List Nat := sctMin (List.replicate 32 9) 7 []

/-- The C10 extension value: one 47-byte record, short-form envelope. -/
def valueM : List Nat := 4 :: 51 :: be 2 (sctM.length + 2) ++ be 2 sctM.length ++ sctM

/-- Dataset with two log entries that decode to the same 32-byte log id
(all zeros) but different keys. -/
def dsDup : Json :=
  mkDs [mkOp "Op" [mkLog "l1" "u1" zeros32b64 "AQ==" 86400,
                   mkLog "l2" "u2" zeros32b64 "Ag==" 86400]]

/-- The registry entry the duplicate dataset ends with: the second log,
which silently overwrote the first. -/
def dupSecond : CTLog :=
  { description := "\"l2\"", url := "\"u2\"", operated_by := "\"Op\"",
    key := [2], id := List.replicate 32 0, max_merge_delay := 86400 }

/-- Dataset whose single entry has `log_id` = 32 zero bytes but `key` = the
empty byte string, so `log_id` is not the SHA-256 of the key. -/
def dsBadHash : Json :=
  mkDs [mkOp "Op" [mkLog "bad" "u" zeros32b64 "" 0]]

/-- The entry built from `dsBadHash`. -/
def badHashLog : CTLog :=
  { description := "\"bad\"", url := "\"u\"", operated_by := "\"Op\"",
    key := [], id := List.replicate 32 0, max_merge_delay := 0 }

/-- Dataset whose single operator has no `name` field and an empty `logs`
array. -/
def dsNoName : Json :=
  mkDs [Json.obj [("logs", Json.arr [])]]

/-- An operator object that has logs but no `name` field. -/
def mkOpNoName (logs : List Json) : Json :=
  Json.obj [("logs", Json.arr logs)]

/-- Parsed form of `sctB1` (the C1 scenario's unknown-log SCT). -/
def sctB1dec : Sct :=
  { version := 0, log_id := idB2, timestamp := 5, extensions := [],
    hash_alg := 4, sig_alg := 3, signature := [] }

/-- A parsed SCT used in witnesses. -/
def sctW : Sct :=
  { version := 0, log_id := List.replicate 32 7, timestamp := 5,
    extensions := [], hash_alg := 4, sig_alg := 3, signature := [] }

/-- Serialized form of `sctW`. -/
def rawW : List Nat := sctMin (List.replicate 32 7) 5 []

/-- Registry entry for `sctW`'s log. -/
def lgW : CTLog := ctlogOf (List.replicate 32 7)

/-- One-entry registry for witnesses. -/
def regW : Registry := [(List.replicate 32 7, lgW)]

/-- The first entry built from the duplicate dataset `dsDup`, which the
second entry silently overwrites. -/
def dupFirst : CTLog :=
  { description := "\"l1\"", url := "\"u1\"", operated_by := "\"Op\"",
    key := [1], id := List.replicate 32 0, max_merge_delay := 86400 }

/-- Log entry with `log_id` only (for the C7 witness). -/
def logIdOnly : Json := Json.obj [("log_id", Json.str zeros32b64)]

/-- Log entry with `log_id` and `description`. -/
def logThroughDesc : Json :=
  Json.obj [("log_id", Json.str zeros32b64), ("description", Json.str "d")]

/-- Log entry with `log_id`, `description` and `url`. -/
def logThroughUrl : Json :=
  Json.obj [("log_id", Json.str zeros32b64), ("description", Json.str "d"),
            ("url", Json.str "u")]

/-- Log entry whose `key` is not valid base64. -/
def logBadKey : Json :=
  Json.obj [("log_id", Json.str zeros32b64), ("description", Json.str "d"),
            ("url", Json.str "u"), ("key", Json.str "!")]

/-- Log entry whose `log_id` decodes to a single byte. -/
def logShortId : Json :=
  Json.obj [("log_id", Json.str "AQ=="), ("description", Json.str "d"),
            ("url", Json.str "u"), ("key", Json.str "AQ==")]

/-- Log entry with everything except `mmd`. -/
def logNoMmd : Json :=
  Json.obj [("log_id", Json.str zeros32b64), ("description", Json.str "d"),
            ("url", Json.str "u"), ("key", Json.str "AQ==")]

/-- The registry invariant: every entry's `CTLog.id` equals its key. -/
def RegWF (m : Registry) : Prop :=
  ∀ k c, mapGet m k = some c → c.id = k

/-- Dataset building the one-log registry used in the C6 witness. -/
def dsW : Json :=
  mkDs [mkOp "W" [mkLog "w" "wu" "BwcHBwcHBwcHBwcHBwcHBwcHBwcHBwcHBwcHBwcHBwc=" "" 0]]

/-- The registry entry built from `dsW` (log id = 32 bytes of `7`). -/
def builtW : CTLog :=
  { description := "\"w\"", url := "\"wu\"", operated_by := "\"W\"",
    key := [], id := List.replicate 32 7, max_merge_delay := 0 }

set_option maxRecDepth 8000

/-- The array spine built from a list converts back to the same list. -/
theorem toList_jsonListOf (l : List Json) : (jsonListOf l).toList = l := by
  induction l with
  | nil => rfl
  | cons hd tl ih => simp [jsonListOf, JsonList.toList] at ih ⊢; exact ih

/-- Folding the empty remainder of the operator list is the identity. -/
theorem bind_parseOps_nil (e : Except String Registry) :
    (e >>= fun m => parseOps m []) = e := by
  cases e <;> rfl

/-- A one-operator dataset reduces the build to the inner log loop. -/
theorem parse_single_op (nm : String) (logs : List Json) :
    parse_ct_log_list (mkDs [mkOp nm logs]) = parseLogs (mkOp nm logs) [] logs := by
  show (parseOps [] [mkOp nm logs]) = _
  simp [parseOps, mkOp, Json.get, Json.obj, jsonFieldsOf, jsonFind, Json.as_array,
        Json.arr, req, toList_jsonListOf, Bind.bind, Except.bind]
  exact bind_parseOps_nil _

/-- Same reduction for an operator object without a `name` field. -/
theorem parse_noname_op (logs : List Json) :
    parse_ct_log_list (mkDs [mkOpNoName logs]) = parseLogs (mkOpNoName logs) [] logs := by
  show (parseOps [] [mkOpNoName logs]) = _
  simp [parseOps, mkOpNoName, Json.get, Json.obj, jsonFieldsOf, jsonFind, Json.as_array,
        Json.arr, req, toList_jsonListOf, Bind.bind, Except.bind]
  exact bind_parseOps_nil _

/-- C1 (counterexample): the claim predicts that an SCT whose `log_id` is
absent from the registry gets outcome `UnknownLog` while processing
continues without aborting.  On the concrete certificate `valueC1` — two
SCTs, the second from the unknown log `idB2` — the code instead panics on
the `.unwrap()` of the failed lookup (`src/main.rs` line 104): the run
aborts and the second SCT receives no outcome. -/
theorem ct_C1_counterexample :
    ¬ (∀ (reg : Registry) (sv : SigVerify) (cert : List Nat) (now tol : Nat)
         (value : List Nat) (recs : List (List Nat)) (i : Nat) (s : Sct),
         sctListParse value = some recs →
         (recs.filterMap sctDecode).get? i = some s →
         mapGet reg s.log_id = none →
         (processExts reg sv cert now tol [(sctOid, value)]).2 = none ∧
         (processExts reg sv cert now tol [(sctOid, value)]).1.get? i =
           some Outcome.UnknownLog) := by
  intro h
  have h1 := (h regC1 svTrue [] 10 0 valueC1 [sctA1, sctB1] 1 sctB1dec
    (by decide) (by decide) (by decide)).1
  have h2 : (processExts regC1 svTrue [] 10 0 [(sctOid, valueC1)]).2 =
      some RunErr.panicUnwrap := by decide
  rw [h1] at h2
  cases h2

/-- C1 (amended): when an SCT's `log_id` is absent from the registry, the
per-SCT loop aborts at that SCT with the `.unwrap()` panic: outcomes
already produced for earlier SCTs are kept, the SCT itself gets no
outcome, and later SCTs are not evaluated. -/
theorem ct_C1_amended (reg : Registry) (sv : SigVerify) (cert : List Nat)
    (now tol : Nat) (value : List Nat) (s : Sct) (rest : List Sct)
    (index : Nat) (acc : List Outcome)
    (h : mapGet reg s.log_id = none) :
    mainLoop reg sv cert now tol value (s :: rest) index acc =
      (acc.reverse, some RunErr.panicUnwrap) := by
  simp [mainLoop, h]

/-- C1 witness: the amended statement at the C1 scenario's second SCT. -/
theorem ct_C1_witness :
    mainLoop regC1 svTrue [] 10 0 valueC1 [sctB1dec] 265 [Outcome.Valid] =
      ([Outcome.Valid].reverse, some RunErr.panicUnwrap) :=
  ct_C1_amended regC1 svTrue [] 10 0 valueC1 sctB1dec [] 265 [Outcome.Valid]
    (by decide)

/-- C4 (counterexample): `valueC4` is an SCT-list extension the decoder
accepts, on which the manual cursor (misaligned by the short-form
envelope) reads a declared entry length of 65280 at offset 18, exceeding
the 102-byte buffer.  The claim predicts an extension-format error with no
outcomes; the code has already produced an outcome for the first SCT and
aborts with a slice-index panic instead. -/
theorem ct_C4_counterexample :
    sctListParse valueC4 = some [sctA4, sctB4] ∧
    valueC4.length < 20 + (valueC4.getD 18 0 * 256 + valueC4.getD 19 0) ∧
    processExts regC4 svTrue [] 10 0 [(sctOid, valueC4)] =
      ([Outcome.Malformed], some RunErr.panicSlice) ∧
    processExts regC4 svTrue [] 10 0 [(sctOid, valueC4)] ≠
      ([], some RunErr.badExtension) :=
  ⟨by decide, by decide, by decide, by decide⟩

/-- C4 (amended): when the 2-byte length read by the manual cursor exceeds
the bytes remaining in the extension value, the loop aborts at that SCT
with a slice-index panic, keeping the outcomes already produced for
earlier SCTs; no extension-format error is raised and later SCTs are not
evaluated. -/
theorem ct_C4_amended (reg : Registry) (sv : SigVerify) (cert : List Nat)
    (now tol : Nat) (value : List Nat) (s : Sct) (rest : List Sct)
    (index : Nat) (acc : List Outcome) (lg : CTLog) (bs : List Nat)
    (hlg : mapGet reg s.log_id = some lg)
    (hbs : readSlice value index 2 = some bs)
    (hov : value.length < index + 2 + (bs.getD 0 0 * 256 + bs.getD 1 0)) :
    mainLoop reg sv cert now tol value (s :: rest) index acc =
      (acc.reverse, some RunErr.panicSlice) := by
  have h3 : readSlice value (index + 2) (bs.getD 0 0 * 256 + bs.getD 1 0) = none := by
    simp only [readSlice, ite_eq_right_iff]
    intro hc
    omega
  simp only [mainLoop, hlg, hbs, h3]

/-- C4 witness: the amended statement at a two-byte buffer whose declared
entry length (200) overruns it. -/
theorem ct_C4_witness :
    mainLoop regW svTrue [] 0 0 [0, 200] [sctW] 0 [] =
      (([] : List Outcome).reverse, some RunErr.panicSlice) :=
  ct_C4_amended regW svTrue [] 0 0 [0, 200] sctW [] 0 [] lgW [0, 200]
    (by decide) (by decide) (by decide)

/-- C5: in the modelled verifier, an SCT whose timestamp exceeds the
verification time plus the clock-skew tolerance is reported as
`FutureTimestamp` (given that decoding, log resolution and the signature
check all pass), and an SCT whose timestamp is at or before the
verification time is never reported as `FutureTimestamp`. -/
theorem ct_C5_future_timestamp :
    (∀ (sv : SigVerify) (cert raw : List Nat) (at_time tol : Nat)
       (logs : List CTLog) (s : Sct) (lg : CTLog),
       sctDecode raw = some s →
       logs.find? (fun l => l.id == s.log_id) = some lg →
       sv lg.key (reconstruct cert s) s.signature = true →
       at_time + tol < s.timestamp →
       verify_sct sv cert raw at_time tol logs = Outcome.FutureTimestamp) ∧
    (∀ (sv : SigVerify) (cert raw : List Nat) (at_time tol : Nat)
       (logs : List CTLog) (s : Sct),
       sctDecode raw = some s →
       s.timestamp ≤ at_time →
       verify_sct sv cert raw at_time tol logs ≠ Outcome.FutureTimestamp) := by
  constructor
  · intro sv cert raw at_time tol logs s lg hdec hfind hsig hfut
    have hn : ¬ s.timestamp ≤ at_time + tol := by omega
    simp [verify_sct, hdec, hfind, hsig, hn]
  · intro sv cert raw at_time tol logs s hdec hle
    have hy : s.timestamp ≤ at_time + tol := Nat.le_trans hle (Nat.le_add_right _ _)
    cases hfind : logs.find? (fun l => l.id == s.log_id) with
    | none => simp [verify_sct, hdec, hfind]
    | some lg =>
      cases hsig : sv lg.key (reconstruct cert s) s.signature with
      | true => simp [verify_sct, hdec, hfind, hsig, hy]
      | false => simp [verify_sct, hdec, hfind, hsig]

/-- C5 witness: `rawW` (timestamp 5) is `FutureTimestamp` at time 1 and
not `FutureTimestamp` at time 5. -/
theorem ct_C5_witness :
    verify_sct svTrue [] rawW 1 0 [lgW] = Outcome.FutureTimestamp ∧
    verify_sct svTrue [] rawW 5 0 [lgW] ≠ Outcome.FutureTimestamp :=
  ⟨ct_C5_future_timestamp.1 svTrue [] rawW 1 0 [lgW] sctW lgW
      (by decide) (by decide) rfl (by decide),
   ct_C5_future_timestamp.2 svTrue [] rawW 5 0 [lgW] sctW
      (by decide) (by decide)⟩

/-- Inversion for the log-entry builder: a successful build returns a
`CTLog` whose `id` field is the returned key. -/
theorem buildLog_id (op log : Json) (k : List Nat) (c : CTLog)
    (h : buildLog op log = Except.ok (k, c)) : c.id = k := by
  unfold buildLog at h
  simp only [req, Bind.bind, Except.bind] at h
  repeat' split at h
  all_goals try cases h
  all_goals rfl

/-- The empty registry satisfies the invariant. -/
theorem regWF_nil : RegWF [] := by
  intro k c h
  cases h

/-- Lookup after insert: the inserted key gets the new value, all other
keys are unchanged. -/
theorem mapGet_mapInsert (m : Registry) (k : List Nat) (c : CTLog) (k' : List Nat) :
    mapGet (mapInsert m k c) k' = if k = k' then some c else mapGet m k' := by
  induction m with
  | nil => simp [mapInsert, mapGet]
  | cons p rest ih =>
    obtain ⟨k0, v0⟩ := p
    by_cases h0 : k0 = k
    · subst h0
      simp only [mapInsert, if_pos rfl, mapGet]
      by_cases h1 : k0 = k'
      · subst h1
        simp [mapGet]
      · simp [mapGet, h1]
    · simp only [mapInsert, if_neg h0, mapGet]
      by_cases h1 : k0 = k'
      · subst h1
        have hkk : ¬ (k = k0) := fun he => h0 he.symm
        simp [hkk]
      · simp [h1, ih]

/-- Insertion of an entry whose `id` is its key preserves the invariant. -/
theorem regWF_mapInsert (m : Registry) (k : List Nat) (c : CTLog)
    (hm : RegWF m) (hc : c.id = k) : RegWF (mapInsert m k c) := by
  intro k' c' h
  rw [mapGet_mapInsert] at h
  by_cases he : k = k'
  · rw [if_pos he] at h
    injection h with h
    subst h
    rw [hc, he]
  · rw [if_neg he] at h
    exact hm k' c' h

/-- The inner log loop preserves the registry invariant. -/
theorem regWF_parseLogs (op : Json) : ∀ (logs : List Json) (m m2 : Registry),
    RegWF m → parseLogs op m logs = Except.ok m2 → RegWF m2 := by
  intro logs
  induction logs with
  | nil =>
    intro m m2 hm h
    injection h with h
    subst h
    exact hm
  | cons log rest ih =>
    intro m m2 hm h
    rw [parseLogs] at h
    cases hb : buildLog op log with
    | error e =>
      simp only [hb, Bind.bind, Except.bind] at h
      cases h
    | ok p =>
      obtain ⟨id32, curr⟩ := p
      simp only [hb, Bind.bind, Except.bind] at h
      exact ih (mapInsert m id32 curr) m2
        (regWF_mapInsert m id32 curr hm (buildLog_id op log id32 curr hb)) h

/-- The outer operator loop preserves the registry invariant. -/
theorem regWF_parseOps : ∀ (ops : List Json) (m m2 : Registry),
    RegWF m → parseOps m ops = Except.ok m2 → RegWF m2 := by
  intro ops
  induction ops with
  | nil =>
    intro m m2 hm h
    injection h with h
    subst h
    exact hm
  | cons op rest ih =>
    intro m m2 hm h
    rw [parseOps] at h
    cases h1 : req (op.get "logs") "Failed to get logs from ct logs" with
    | error e => simp only [h1, Bind.bind, Except.bind] at h; cases h
    | ok logsJson =>
      cases h2 : req logsJson.as_array "Failed to get array of logs from ct logs" with
      | error e => simp only [h1, h2, Bind.bind, Except.bind] at h; cases h
      | ok logs =>
        simp only [h1, h2, Bind.bind, Except.bind] at h
        cases h3 : parseLogs op m logs with
        | error e => rw [h3] at h; cases h
        | ok m1 =>
          rw [h3] at h
          exact ih m1 m2 (regWF_parseLogs op logs m m1 hm h3) h

/-- Every registry returned by a successful build satisfies the invariant:
the key of each entry is that entry's `CTLog.id`. -/
theorem regWF_parse (ds : Json) (reg : Registry)
    (h : parse_ct_log_list ds = Except.ok reg) : RegWF reg := by
  rw [parse_ct_log_list] at h
  cases h1 : req (ds.get "operators") "Failed to get operators from ct logs" with
  | error e => simp only [h1, Bind.bind, Except.bind] at h; cases h
  | ok opsJson =>
    cases h2 : req opsJson.as_array "Failed to get array of operators from ct logs" with
    | error e => simp only [h1, h2, Bind.bind, Except.bind] at h; cases h
    | ok ops =>
      simp only [h1, h2, Bind.bind, Except.bind] at h
      exact regWF_parseOps ops [] reg regWF_nil h

/-- C6: an SCT that decodes, whose `log_id` resolves in a registry
produced by a successful build, whose signature check passes over the
reconstructed struct, and whose timestamp is within the verification time
plus tolerance, is reported `Valid`.  `main` passes exactly the resolved
log to the verifier; the registry invariant (`regWF_parse`) supplies the
id match. -/
theorem ct_C6_valid (ds : Json) (reg : Registry) (sv : SigVerify)
    (cert raw : List Nat) (at_time tol : Nat) (s : Sct) (lg : CTLog)
    (hbuild : parse_ct_log_list ds = Except.ok reg)
    (hreg : mapGet reg s.log_id = some lg)
    (hdec : sctDecode raw = some s)
    (hsig : sv lg.key (reconstruct cert s) s.signature = true)
    (hts : s.timestamp ≤ at_time + tol) :
    verify_sct sv cert raw at_time tol [lg] = Outcome.Valid := by
  have hid : lg.id = s.log_id := regWF_parse ds reg hbuild s.log_id lg hreg
  have hfind : [lg].find? (fun l => l.id == s.log_id) = some lg := by
    simp [List.find?, hid]
  simp [verify_sct, hdec, hfind, hsig, hts]

/-- C6 witness: the fully-passing SCT `rawW`, resolved in the registry
built from `dsW`, at time 5. -/
theorem ct_C6_witness :
    verify_sct svTrue [] rawW 5 0 [builtW] = Outcome.Valid :=
  ct_C6_valid dsW [(List.replicate 32 7, builtW)] svTrue [] rawW 5 0 sctW
    builtW (by decide) (by decide) (by decide) rfl (by decide)

/-- C8: registry construction is deterministic — two successful builds
from the same dataset yield the same mapping, key for key. -/
theorem ct_C8_deterministic (ds : Json) (m1 m2 : Registry)
    (h1 : parse_ct_log_list ds = Except.ok m1)
    (h2 : parse_ct_log_list ds = Except.ok m2) :
    m1 = m2 ∧ ∀ k, mapGet m1 k = mapGet m2 k := by
  rw [h1] at h2
  injection h2 with h
  subst h
  exact ⟨rfl, fun _ => rfl⟩

/-- C8 witness: determinism instantiated at the concrete dataset `dsDup`. -/
theorem ct_C8_witness :
    ([(List.replicate 32 0, dupSecond)] : Registry) =
        [(List.replicate 32 0, dupSecond)] ∧
    ∀ k, mapGet [(List.replicate 32 0, dupSecond)] k =
        mapGet [(List.replicate 32 0, dupSecond)] k :=
  ct_C8_deterministic dsDup _ _ (by decide) (by decide)

/-- C9: a certificate none of whose extensions carries the SCT object
identifier produces the distinct no-SCTs state: the scan completes
successfully with no per-SCT outcomes and no error. -/
theorem ct_C9_no_sct_extension (reg : Registry) (sv : SigVerify)
    (cert : List Nat) (now tol : Nat) (exts : List (String × List Nat))
    (h : ∀ p ∈ exts, p.1 ≠ sctOid) :
    processExts reg sv cert now tol exts = ([], none) := by
  induction exts with
  | nil => rfl
  | cons e rest ih =>
    cases e with
    | mk oid value =>
      have hne : oid ≠ sctOid := h (oid, value) (List.mem_cons_self _ _)
      simp [processExts, hne]
      exact ih (fun p hp => h p (List.mem_cons_of_mem _ hp))

/-- C9 witness: a certificate with one non-SCT extension. -/
theorem ct_C9_witness :
    processExts [] svTrue [] 0 0 [("2.5.29.15", [1, 2, 3])] = ([], none) :=
  ct_C9_no_sct_extension [] svTrue [] 0 0 [("2.5.29.15", [1, 2, 3])]
    (by decide)

/-- A dataset wrapper reduces the build to the operator loop. -/
theorem parse_mkDs (ops : List Json) :
    parse_ct_log_list (mkDs ops) = parseOps [] ops := by
  simp [parse_ct_log_list, mkDs, Json.get, Json.obj, jsonFieldsOf, jsonFind,
        Json.as_array, Json.arr, req, toList_jsonListOf, Bind.bind, Except.bind]

/-- C2 (counterexample): `dsDup` contains two log entries with the same
32-byte `log_id`; the claim predicts the build fails with a `DataError`,
but it succeeds, and the resulting registry maps the shared id to the
second entry — the first was silently overwritten. -/
theorem ct_C2_counterexample :
    parse_ct_log_list dsDup = Except.ok [(List.replicate 32 0, dupSecond)] ∧
    dupSecond.key = [2] ∧
    mapGet [(List.replicate 32 0, dupSecond)] (List.replicate 32 0) =
      some dupSecond :=
  ⟨by decide, by decide, by decide⟩

/-- C2 (amended): on a dataset whose operator carries two well-formed log
entries that decode to the same `log_id`, registry construction succeeds
and the later entry silently overwrites the earlier one. -/
theorem ct_C2_amended (nm : String) (l1 l2 : Json) (k : List Nat) (c1 c2 : CTLog)
    (h1 : buildLog (mkOp nm [l1, l2]) l1 = Except.ok (k, c1))
    (h2 : buildLog (mkOp nm [l1, l2]) l2 = Except.ok (k, c2)) :
    parse_ct_log_list (mkDs [mkOp nm [l1, l2]]) = Except.ok [(k, c2)] ∧
    mapGet [(k, c2)] k = some c2 := by
  constructor
  · rw [parse_single_op]
    simp [parseLogs, h1, h2, Bind.bind, Except.bind, mapInsert]
  · simp [mapGet]

/-- C2 witness: the amended statement at the concrete duplicate dataset. -/
theorem ct_C2_witness :
    parse_ct_log_list dsDup = Except.ok [(List.replicate 32 0, dupSecond)] ∧
    mapGet [(List.replicate 32 0, dupSecond)] (List.replicate 32 0) =
      some dupSecond :=
  ct_C2_amended "Op" (mkLog "l1" "u1" zeros32b64 "AQ==" 86400)
    (mkLog "l2" "u2" zeros32b64 "Ag==" 86400) (List.replicate 32 0)
    dupFirst dupSecond (by decide) (by decide)

/-- C3 (counterexample): `dsBadHash` has an entry whose `log_id` (32 zero
bytes) is not the SHA-256 of its `key` (the empty byte string); the claim
predicts the build rejects or flags it, but it is accepted unchanged. -/
theorem ct_C3_counterexample :
    parse_ct_log_list dsBadHash = Except.ok [(List.replicate 32 0, badHashLog)] ∧
    sha256Bytes badHashLog.key ≠ badHashLog.id :=
  ⟨by decide, by decide⟩

/-- C3 (amended): the registry build performs no hash-consistency check:
any log entry whose fields individually parse is accepted, with no
condition relating `log_id` to `SHA-256(key)`. -/
theorem ct_C3_amended (nm : String) (log : Json) (k : List Nat) (c : CTLog)
    (h : buildLog (mkOp nm [log]) log = Except.ok (k, c)) :
    parse_ct_log_list (mkDs [mkOp nm [log]]) = Except.ok [(k, c)] := by
  rw [parse_single_op]
  simp [parseLogs, h, Bind.bind, Except.bind, mapInsert]

/-- C3 witness: the amended statement at the hash-violating entry. -/
theorem ct_C3_witness :
    parse_ct_log_list dsBadHash = Except.ok [(List.replicate 32 0, badHashLog)] :=
  ct_C3_amended "Op" (mkLog "bad" "u" zeros32b64 "" 0) (List.replicate 32 0)
    badHashLog (by decide)

/-- C7 (counterexample): the claim predicts a missing operator `name`
aborts the build with a `DataError`, but an operator with no `name` and an
empty `logs` array is accepted: the `name` field is only read while
processing a log entry. -/
theorem ct_C7_counterexample :
    parse_ct_log_list dsNoName = Except.ok [] := by decide

/-- C7 (amended): each listed malformation does abort the build with the
source's error — a missing `logs` array on an operator; a missing
`log_id`, `description`, `url`, `key` or `mmd` on a log entry; a base64
field that fails to decode; a `log_id` that does not decode to exactly 32
bytes — with one exception forced by the counterexample: a missing
operator `name` aborts only when the operator has at least one log entry
(the field is read per log), and the base64 and length-conversion errors
carry the underlying message rather than the field name. -/
theorem ct_C7_amended :
    (∀ (op : Json), op.get "logs" = none →
       parse_ct_log_list (mkDs [op]) =
         Except.error "Failed to get logs from ct logs") ∧
    (∀ (nm : String) (log : Json), log.get "log_id" = none →
       parse_ct_log_list (mkDs [mkOp nm [log]]) =
         Except.error "Failed to get log_id from ct logs") ∧
    (∀ (nm : String) (log : Json) (s : String),
       log.get "log_id" = some (Json.str s) → base64Decode s = none →
       parse_ct_log_list (mkDs [mkOp nm [log]]) =
         Except.error "base64 decode error") ∧
    (∀ (nm : String) (log : Json) (s : String) (bs : List Nat),
       log.get "log_id" = some (Json.str s) → base64Decode s = some bs →
       log.get "description" = none →
       parse_ct_log_list (mkDs [mkOp nm [log]]) =
         Except.error "Failed to get description from ct logs") ∧
    (∀ (nm : String) (log : Json) (s : String) (bs : List Nat) (d : Json),
       log.get "log_id" = some (Json.str s) → base64Decode s = some bs →
       log.get "description" = some d → log.get "url" = none →
       parse_ct_log_list (mkDs [mkOp nm [log]]) =
         Except.error "Failed to get url from ct logs") ∧
    (∀ (log : Json) (s : String) (bs : List Nat) (d u : Json),
       log.get "log_id" = some (Json.str s) → base64Decode s = some bs →
       log.get "description" = some d → log.get "url" = some u →
       parse_ct_log_list (mkDs [mkOpNoName [log]]) =
         Except.error "Failed to get name from ct logs") ∧
    (∀ (nm : String) (log : Json) (s : String) (bs : List Nat) (d u : Json),
       log.get "log_id" = some (Json.str s) → base64Decode s = some bs →
       log.get "description" = some d → log.get "url" = some u →
       log.get "key" = none →
       parse_ct_log_list (mkDs [mkOp nm [log]]) =
         Except.error "Failed to get key from ct logs") ∧
    (∀ (nm : String) (log : Json) (s : String) (bs : List Nat) (d u : Json)
       (ks : String),
       log.get "log_id" = some (Json.str s) → base64Decode s = some bs →
       log.get "description" = some d → log.get "url" = some u →
       log.get "key" = some (Json.str ks) → base64Decode ks = none →
       parse_ct_log_list (mkDs [mkOp nm [log]]) =
         Except.error "base64 decode error") ∧
    (∀ (nm : String) (log : Json) (s : String) (bs : List Nat) (d u : Json)
       (ks : String) (kb : List Nat),
       log.get "log_id" = some (Json.str s) → base64Decode s = some bs →
       log.get "description" = some d → log.get "url" = some u →
       log.get "key" = some (Json.str ks) → base64Decode ks = some kb →
       bs.length ≠ 32 →
       parse_ct_log_list (mkDs [mkOp nm [log]]) =
         Except.error "could not convert slice to array") ∧
    (∀ (nm : String) (log : Json) (s : String) (bs : List Nat) (d u : Json)
       (ks : String) (kb : List Nat),
       log.get "log_id" = some (Json.str s) → base64Decode s = some bs →
       log.get "description" = some d → log.get "url" = some u →
       log.get "key" = some (Json.str ks) → base64Decode ks = some kb →
       bs.length = 32 → log.get "mmd" = none →
       parse_ct_log_list (mkDs [mkOp nm [log]]) =
         Except.error "Failed to get mmd from ct logs") := by
  refine ⟨?_, ?_, ?_, ?_, ?_, ?_, ?_, ?_, ?_, ?_⟩
  · intro op h
    rw [parse_mkDs]
    simp [parseOps, h, req, Bind.bind, Except.bind]
  · intro nm log h
    rw [parse_single_op]
    simp [parseLogs, buildLog, h, req, Bind.bind, Except.bind]
  · intro nm log s h1 h2
    rw [parse_single_op]
    simp [parseLogs, buildLog, h1, h2, req, Json.as_str, Bind.bind, Except.bind]
  · intro nm log s bs h1 h2 h3
    rw [parse_single_op]
    simp [parseLogs, buildLog, h1, h2, h3, req, Json.as_str, Bind.bind, Except.bind]
  · intro nm log s bs d h1 h2 h3 h4
    rw [parse_single_op]
    simp [parseLogs, buildLog, h1, h2, h3, h4, req, Json.as_str, Bind.bind, Except.bind]
  · intro log s bs d u h1 h2 h3 h4
    rw [parse_noname_op]
    have hname : (mkOpNoName [log]).get "name" = none := rfl
    simp [parseLogs, buildLog, h1, h2, h3, h4, hname, req, Json.as_str,
          Bind.bind, Except.bind]
  · intro nm log s bs d u h1 h2 h3 h4 h5
    rw [parse_single_op]
    have hname : (mkOp nm [log]).get "name" = some (Json.str nm) := rfl
    simp [parseLogs, buildLog, h1, h2, h3, h4, h5, hname, req, Json.as_str,
          Bind.bind, Except.bind]
  · intro nm log s bs d u ks h1 h2 h3 h4 h5 h6
    rw [parse_single_op]
    have hname : (mkOp nm [log]).get "name" = some (Json.str nm) := rfl
    simp [parseLogs, buildLog, h1, h2, h3, h4, h5, h6, hname, req, Json.as_str,
          Bind.bind, Except.bind]
  · intro nm log s bs d u ks kb h1 h2 h3 h4 h5 h6 h7
    rw [parse_single_op]
    have hname : (mkOp nm [log]).get "name" = some (Json.str nm) := rfl
    simp [parseLogs, buildLog, h1, h2, h3, h4, h5, h6, h7, hname, req, Json.as_str,
          Bind.bind, Except.bind]
  · intro nm log s bs d u ks kb h1 h2 h3 h4 h5 h6 h7 h8
    rw [parse_single_op]
    have hname : (mkOp nm [log]).get "name" = some (Json.str nm) := rfl
    simp [parseLogs, buildLog, h1, h2, h3, h4, h5, h6, h7, h8, hname, req,
          Json.as_str, Bind.bind, Except.bind]

/-- C7 witness: every conjunct of the amended statement at a concrete
dataset. -/
theorem ct_C7_witness :
    parse_ct_log_list (mkDs [Json.obj [("name", Json.str "X")]]) =
      Except.error "Failed to get logs from ct logs" ∧
    parse_ct_log_list (mkDs [mkOp "A" [Json.obj []]]) =
      Except.error "Failed to get log_id from ct logs" ∧
    parse_ct_log_list (mkDs [mkOp "A" [Json.obj [("log_id", Json.str "!")]]]) =
      Except.error "base64 decode error" ∧
    parse_ct_log_list (mkDs [mkOp "A" [logIdOnly]]) =
      Except.error "Failed to get description from ct logs" ∧
    parse_ct_log_list (mkDs [mkOp "A" [logThroughDesc]]) =
      Except.error "Failed to get url from ct logs" ∧
    parse_ct_log_list (mkDs [mkOpNoName [logThroughUrl]]) =
      Except.error "Failed to get name from ct logs" ∧
    parse_ct_log_list (mkDs [mkOp "A" [logThroughUrl]]) =
      Except.error "Failed to get key from ct logs" ∧
    parse_ct_log_list (mkDs [mkOp "A" [logBadKey]]) =
      Except.error "base64 decode error" ∧
    parse_ct_log_list (mkDs [mkOp "A" [logShortId]]) =
      Except.error "could not convert slice to array" ∧
    parse_ct_log_list (mkDs [mkOp "A" [logNoMmd]]) =
      Except.error "Failed to get mmd from ct logs" := by
  obtain ⟨a, b, c, d, e, f, g, h, i, j⟩ := ct_C7_amended
  refine ⟨a _ rfl, b "A" _ rfl, c "A" _ "!" rfl rfl, ?_, ?_, ?_, ?_, ?_, ?_, ?_⟩
  · exact d "A" logIdOnly zeros32b64 (List.replicate 32 0) rfl (by decide) rfl
  · exact e "A" logThroughDesc zeros32b64 (List.replicate 32 0) (Json.str "d")
      rfl (by decide) rfl rfl
  · exact f logThroughUrl zeros32b64 (List.replicate 32 0) (Json.str "d")
      (Json.str "u") rfl (by decide) rfl rfl
  · exact g "A" logThroughUrl zeros32b64 (List.replicate 32 0) (Json.str "d")
      (Json.str "u") rfl (by decide) rfl rfl rfl
  · exact h "A" logBadKey zeros32b64 (List.replicate 32 0) (Json.str "d")
      (Json.str "u") "!" rfl (by decide) rfl rfl rfl rfl
  · exact i "A" logShortId "AQ==" [1] (Json.str "d") (Json.str "u") "AQ==" [1]
      rfl (by decide) rfl rfl rfl (by decide) (by decide)
  · exact j "A" logNoMmd zeros32b64 (List.replicate 32 0) (Json.str "d")
      (Json.str "u") "AQ==" [1] rfl (by decide) rfl rfl rfl (by decide)
      (by decide) rfl

/-- When the entry sequence starting at offset `idx` of `value` parses,
the manual cursor extraction from `idx` returns exactly those entries. -/
theorem manualExtract_of_entries :
    ∀ (fuel : Nat) (eb : List Nat) (recs : List (List Nat)) (value : List Nat) (idx : Nat),
      parseEntriesGo fuel eb = some recs →
      value.drop idx = eb →
      idx ≤ value.length →
      manualExtract value recs.length idx = some recs := by
  intro fuel
  induction fuel with
  | zero =>
    intro eb recs value idx hp hdrop hle
    cases eb with
    | nil =>
      simp [parseEntriesGo] at hp
      subst hp
      rfl
    | cons x xs => simp [parseEntriesGo] at hp
  | succ n ih =>
    intro eb recs value idx hp hdrop hle
    match eb, hdrop with
    | [], hdrop =>
      simp [parseEntriesGo] at hp
      subst hp
      rfl
    | [x], hdrop => simp [parseEntriesGo] at hp
    | hi :: lo :: rest, hdrop =>
      rw [parseEntriesGo] at hp
      split at hp
      case isTrue hn =>
        cases hrec : parseEntriesGo n (rest.drop (hi * 256 + lo)) with
        | none => rw [hrec] at hp; cases hp
        | some recs' =>
          rw [hrec] at hp
          injection hp with hp
          subst hp
          have hlen : value.length = idx + 2 + rest.length := by
            have h1 := congrArg List.length hdrop
            simp [List.length_drop] at h1
            omega
          have hdrop2 : value.drop (idx + 2) = rest := by
            rw [← List.drop_drop 2 idx value, hdrop]
            rfl
          have hslice1 : readSlice value idx 2 = some [hi, lo] := by
            simp only [readSlice, if_pos (by omega : idx + 2 ≤ value.length)]
            rw [hdrop]
            rfl
          have hslice2 : readSlice value (idx + 2) (hi * 256 + lo) =
              some (rest.take (hi * 256 + lo)) := by
            simp only [readSlice, if_pos (by omega : idx + 2 + (hi * 256 + lo) ≤ value.length)]
            rw [hdrop2]
          have hdrop3 : value.drop (idx + 2 + (hi * 256 + lo)) = rest.drop (hi * 256 + lo) := by
            rw [← List.drop_drop (hi * 256 + lo) (idx + 2) value, hdrop2]
          have hrec2 := ih (rest.drop (hi * 256 + lo)) recs' value
            (idx + 2 + (hi * 256 + lo)) hrec hdrop3 (by omega)
          show manualExtract value (recs'.length + 1) idx = _
          rw [manualExtract, hslice1]
          simp only [List.getD]
          show (match readSlice value (idx + 2)
              ([hi, lo].getD 0 0 * 256 + [hi, lo].getD 1 0) with
            | none => none
            | some raw =>
              (manualExtract value recs'.length
                (idx + 2 + ([hi, lo].getD 0 0 * 256 + [hi, lo].getD 1 0))).map
                (fun tl => raw :: tl)) = _
          have hgd : ([hi, lo].getD 0 0 * 256 + [hi, lo].getD 1 0) = hi * 256 + lo := rfl
          rw [hgd, hslice2, hrec2]
          rfl
      case isFalse hn => cases hp

/-- C10 (amended): for extension values whose octet-string envelope uses
the long-form two-byte length (`0x04 0x82 …`, a four-byte header) — the
only shape on which the source's fixed cursor offset 6 is aligned — the
manual extraction agrees with the SCT-list decoder: it returns exactly the
decoder's records, in order. -/
theorem ct_C10_amended (hb lb : Nat) (body : List Nat) (recs : List (List Nat))
    (hp : sctListParse (4 :: 130 :: hb :: lb :: body) = some recs) :
    manualExtract (4 :: 130 :: hb :: lb :: body) recs.length 6 = some recs := by
  have hd0 : derContent (4 :: 130 :: hb :: lb :: body) =
      (if 256 ≤ hb * 256 + lb ∧ body.length = hb * 256 + lb then some body
       else none) := rfl
  rw [sctListParse, hd0] at hp
  by_cases hc : 256 ≤ hb * 256 + lb ∧ body.length = hb * 256 + lb
  · rw [if_pos hc] at hp
    cases body with
    | nil => simp at hp
    | cons t1 tl =>
      cases tl with
      | nil => simp at hp
      | cons t2 eb =>
        change (if t1 * 256 + t2 = eb.length then
            match parseEntries eb with
            | some recs2 =>
                if recs2.all (fun r => (sctDecode r).isSome) then some recs2
                else none
            | none => none
          else none) = some recs at hp
        by_cases ht : t1 * 256 + t2 = eb.length
        · rw [if_pos ht] at hp
          cases hpe : parseEntries eb with
          | none => rw [hpe] at hp; cases hp
          | some recs0 =>
            rw [hpe] at hp
            change (if (recs0.all fun r => (sctDecode r).isSome) = true
                then some recs0 else none) = some recs at hp
            by_cases ha : (recs0.all fun r => (sctDecode r).isSome) = true
            · rw [if_pos ha] at hp
              injection hp with hp
              subst hp
              exact manualExtract_of_entries eb.length eb recs0
                (4 :: 130 :: hb :: lb :: t1 :: t2 :: eb) 6 hpe rfl (by simp)
            · rw [if_neg ha] at hp; cases hp
        · rw [if_neg ht] at hp; cases hp
  · rw [if_neg hc] at hp
    cases hp

/-- C10 witness: the amended statement at the aligned two-SCT extension
value of the C1 scenario. -/
theorem ct_C10_witness :
    manualExtract (4 :: 130 :: 1 :: 54 :: (be 2 ebC1.length ++ ebC1)) 2 6 =
      some [sctA1, sctB1] :=
  ct_C10_amended 1 54 (be 2 ebC1.length ++ ebC1) [sctA1, sctB1] (by decide)

/-- C10 (counterexample): `valueM` is accepted by the SCT-list decoder
with the single record `sctM`, but its 51-byte content takes a short-form
envelope length, so the manual cursor at fixed offset 6 starts two bytes
into the record and returns a different raw slice (nine `9` bytes, read
from inside the log id) — the extraction does not agree with the decoder
on this accepted input. -/
theorem ct_C10_counterexample :
    sctListParse valueM = some [sctM] ∧
    manualExtract valueM 1 6 = some [List.replicate 9 9] ∧
    ([List.replicate 9 9] : List (List Nat)) ≠ [sctM] :=
  ⟨by decide, by decide, by decide⟩
